import Mathlib

/-!
Shallow embedding of `src/dashboard_app.py`, a single-page sentiment
dashboard.  Scores are modelled as rationals, dates as integers
(year * 12 + month index, order-isomorphic to the chronological order of
the `%b %Y` timestamps the code builds), and the rendered page as a list
of widget values.  Pandas tables become lists of rows; `sort_values`
becomes a stable insertion sort; `groupby` with its default sorted keys
becomes a map over the sorted deduplicated key list.
-/

namespace Dashboard

/-- A raw spreadsheet row of the sheet `Quarterly Sentiment`.  The two
optional score columns are modelled as always-present fields whose values
are only meaningful when the corresponding column-presence flag of the
sheet is set. -/
structure RawRow where
  company : String
  sector : String
  month : String
  year : Int
  overall_Score : Rat
  overall_Sentiment : Rat
deriving DecidableEq

/-- A sheet of the workbook: which of the two score columns exist, and the
data rows. -/
structure Sheet where
  hasOverallScore : Bool
  hasOverallSentiment : Bool
  rows : List RawRow
deriving DecidableEq

/-- A row of the loaded dataframe after `load_data` added the `Date` and
`Score` columns.  `date` encodes the parsed `%b %Y` timestamp as
`year * 12 + monthIndex`. -/
structure Row where
  company : String
  sector : String
  month : String
  year : Int
  date : Int
  score : Rat
deriving DecidableEq

/-- The loaded dataframe.  `hasScore` records whether the `Score` column
was created (the code only creates it when `Overall_Score` or
`Overall_Sentiment` exists); when it is `false` the per-row `score`
fields are the meaningless placeholder `0`. -/
structure DataFrame where
  rows : List Row
  hasScore : Bool
deriving DecidableEq

/-- The external environment of `load_data`: whether the Excel file
exists, and, if reading it succeeds, the workbook as an association list
from sheet names to sheets (`none` models a read that raises). -/
structure Env where
  fileExists : Bool
  workbook : Option (List (String × Sheet))
deriving DecidableEq

/-- The page is modelled as a list of widget values, the observable
output of `main`. -/
inductive Widget where
  | errorMsg (msg : String)
  | stopped
  | headerText (s : String)
  | listItem (company : String) (score : Rat)
  | sectorItem (sector : String) (score : Rat)
  | treemap (data : List (String × Rat × Nat))
  | histogram (scores : List Rat)
  | selectbox (label : String) (options : List String)
  | metric (label : String) (value : Rat)
  | caption (s : String)
  | lineChart (points : List (Int × Rat))
  | dataTable (rows : List Row)
  | crashed
deriving DecidableEq

/-- Model of `pd.to_datetime(_, format=%b %Y)`: the month abbreviation must be one
of the twelve English abbreviations, otherwise the conversion raises. -/
def monthIndex : String → Option Int
  | "Jan" => some 1
  | "Feb" => some 2
  | "Mar" => some 3
  | "Apr" => some 4
  | "May" => some 5
  | "Jun" => some 6
  | "Jul" => some 7
  | "Aug" => some 8
  | "Sep" => some 9
  | "Oct" => some 10
  | "Nov" => some 11
  | "Dec" => some 12
  | _ => none

/-- One parsed row: the `Date` column value is `year * 12 + monthIndex`,
and the `Score` column value is taken from `Overall_Score` when that
column exists, else from `Overall_Sentiment`, else it is the placeholder
`0` (in the source no `Score` column is created in that last case; the
table-level flag `hasScore` records this).  The source assigns the
`Score` column after sorting, but the assignment is per-row, so it
commutes with the reordering. -/
def buildRow (hs hsent : Bool) (rr : RawRow) (mi : Int) : Row :=
  { company := rr.company, sector := rr.sector, month := rr.month,
    year := rr.year, date := rr.year * 12 + mi,
    score := if hs then rr.overall_Score
             else if hsent then rr.overall_Sentiment else 0 }

/-- Parse every row; any invalid month makes `pd.to_datetime` raise, which
`load_data` catches, so the whole parse fails. -/
def parseRows (hs hsent : Bool) : List RawRow → Option (List Row)
  | [] => some []
  | rr :: rest =>
    match monthIndex rr.month with
    | none => none
    | some mi => (parseRows hs hsent rest).map (fun rs => buildRow hs hsent rr mi :: rs)

/-- Model of `pd.read_excel(_, sheet_name=...)`: look the sheet up by name; a
missing sheet raises. -/
def lookupSheet (wb : List (String × Sheet)) (name : String) : Option Sheet :=
  (wb.find? (fun p => decide (p.1 = name))).map (·.2)

/-- Ordering of rows by the `Date` column (`df.sort_values(Date)`). -/
def dateLe (a b : Row) : Prop := a.date ≤ b.date

instance : DecidableRel dateLe := fun a b => inferInstanceAs (Decidable (a.date ≤ b.date))

instance : IsTotal Row dateLe := ⟨fun a b => Int.le_total a.date b.date⟩

instance : IsTrans Row dateLe := ⟨fun _ _ _ h1 h2 => le_trans h1 h2⟩

/-- Lexicographic ordering by `Company` then `Date`
(`df.sort_values([Company, Date])`). -/
def compDateLe (a b : Row) : Prop :=
  a.company < b.company ∨ (a.company = b.company ∧ a.date ≤ b.date)

instance : DecidableRel compDateLe := fun a b =>
  inferInstanceAs (Decidable (a.company < b.company ∨ (a.company = b.company ∧ a.date ≤ b.date)))

instance : IsTotal Row compDateLe := by
  refine ⟨fun a b => ?_⟩
  rcases lt_trichotomy a.company b.company with h | h | h
  · exact Or.inl (Or.inl h)
  · rcases Int.le_total a.date b.date with hd | hd
    · exact Or.inl (Or.inr ⟨h, hd⟩)
    · exact Or.inr (Or.inr ⟨h.symm, hd⟩)
  · exact Or.inr (Or.inl h)

instance : IsTrans Row compDateLe := by
  refine ⟨fun a b c h1 h2 => ?_⟩
  rcases h1 with h1 | ⟨he1, hd1⟩
  · rcases h2 with h2 | ⟨he2, _⟩
    · exact Or.inl (lt_trans h1 h2)
    · exact Or.inl (he2 ▸ h1)
  · rcases h2 with h2 | ⟨he2, hd2⟩
    · exact Or.inl (he1 ▸ h2)
    · exact Or.inr ⟨he1.trans he2, le_trans hd1 hd2⟩

/-- Descending ordering by `Score` (`sort_values(Score, ascending=False)`). -/
def scoreDescLe (a b : Row) : Prop := b.score ≤ a.score

instance : DecidableRel scoreDescLe := fun a b => inferInstanceAs (Decidable (b.score ≤ a.score))

instance : IsTotal Row scoreDescLe := ⟨fun a b => (le_total b.score a.score)⟩

instance : IsTrans Row scoreDescLe := ⟨fun _ _ _ h1 h2 => le_trans h2 h1⟩

/-- Ascending ordering by `Score` (`sort_values(Score, ascending=True)`). -/
def scoreAscLe (a b : Row) : Prop := a.score ≤ b.score

instance : DecidableRel scoreAscLe := fun a b => inferInstanceAs (Decidable (a.score ≤ b.score))

instance : IsTotal Row scoreAscLe := ⟨fun a b => le_total a.score b.score⟩

instance : IsTrans Row scoreAscLe := ⟨fun _ _ _ h1 h2 => le_trans h1 h2⟩

/-- Ordering of strings, for the python `sorted` calls on option lists. -/
def strLe (a b : String) : Prop := a ≤ b

instance : DecidableRel strLe := fun a b => inferInstanceAs (Decidable (a ≤ b))

instance : IsTotal String strLe := ⟨fun a b => le_total a b⟩

instance : IsTrans String strLe := ⟨fun _ _ _ h1 h2 => le_trans h1 h2⟩

/-- Descending ordering of (sector, mean) pairs by the mean
(`Series.sort_values(ascending=False)`). -/
def pairScoreDesc (a b : String × Rat) : Prop := b.2 ≤ a.2

instance : DecidableRel pairScoreDesc := fun a b => inferInstanceAs (Decidable (b.2 ≤ a.2))

instance : IsTotal (String × Rat) pairScoreDesc := ⟨fun a b => le_total b.2 a.2⟩

instance : IsTrans (String × Rat) pairScoreDesc := ⟨fun _ _ _ h1 h2 => le_trans h2 h1⟩

/-- Model of `sorted(...)` on a python list of strings. -/
def sortStrings (l : List String) : List String := List.insertionSort strLe l

/-- The function `load_data`: returns the error widgets it emitted and the resulting
table (`none` models the python `None`).  A missing file returns `None`
silently; any raising step (unreadable workbook, missing sheet, invalid
month string) is caught, shows `st.error`, and returns `None`. -/
def load_data (env : Env) : List Widget × Option DataFrame :=
  if env.fileExists = false then ([], none)
  else
    match env.workbook with
    | none => ([Widget.errorMsg "Error"], none)
    | some wb =>
      match lookupSheet wb "Quarterly Sentiment" with
      | none => ([Widget.errorMsg "Error"], none)
      | some sh =>
        match parseRows sh.hasOverallScore sh.hasOverallSentiment sh.rows with
        | none => ([Widget.errorMsg "Error"], none)
        | some rows0 =>
          ([], some { rows := List.insertionSort compDateLe rows0,
                      hasScore := sh.hasOverallScore || sh.hasOverallSentiment })

/-- The sheet `load_data` reads: the workbook entry named
`Quarterly Sentiment`. -/
def sheetOf (env : Env) : Option Sheet :=
  env.workbook.bind (fun wb => lookupSheet wb "Quarterly Sentiment")

/-- The score value `load_data` puts in the `Score` column for a raw row
of a given sheet. -/
def chosenScore (sh : Sheet) (rr : RawRow) : Rat :=
  if sh.hasOverallScore then rr.overall_Score
  else if sh.hasOverallSentiment then rr.overall_Sentiment else 0

/-- Model of `groupby(Company).tail(1)` on a list already sorted as desired: keep
exactly the rows that are the last occurrence of their company, in list
order. -/
def tailOnePerCompany : List Row → List Row
  | [] => []
  | r :: rs =>
    if rs.any (fun s => decide (s.company = r.company)) then tailOnePerCompany rs
    else r :: tailOnePerCompany rs

/-- The view `latest_df = df.sort_values(Date).groupby(Company).tail(1)`. -/
def latest_df (df : DataFrame) : List Row :=
  tailOnePerCompany (List.insertionSort dateLe df.rows)

/-- The list `top_pos = latest_df.sort_values(Score, ascending=False).head(5)`. -/
def top_pos (df : DataFrame) : List Row :=
  (List.insertionSort scoreDescLe (latest_df df)).take 5

/-- The list `top_neg = latest_df.sort_values(Score, ascending=True).head(5)`. -/
def top_neg (df : DataFrame) : List Row :=
  (List.insertionSort scoreAscLe (latest_df df)).take 5

/-- The sorted unique group keys a pandas `groupby(Sector)` produces
(default `sort=True`). -/
def sectorKeys (l : List Row) : List String :=
  sortStrings ((l.map (·.sector)).dedup)

/-- The mean of the `Score` column over the rows of one sector group. -/
def groupMeanScore (l : List Row) (s : String) : Rat :=
  let g := l.filter (fun r => decide (r.sector = s))
  (g.map (·.score)).sum / (g.length : Rat)

/-- Model of `groupby(Sector)[Company].count()` for one group: the number of rows
of that sector (the `Company` cells are never null in this model). -/
def groupCompanyCount (l : List Row) (s : String) : Nat :=
  (l.filter (fun r => decide (r.sector = s))).length

/-- The card data `sector_avg = latest_df.groupby(Sector)[Score].mean()
                     .sort_values(ascending=False).head(5)`. -/
def sector_avg (df : DataFrame) : List (String × Rat) :=
  let l := latest_df df
  (List.insertionSort pairScoreDesc
    ((sectorKeys l).map (fun s => (s, groupMeanScore l s)))).take 5

/-- The treemap input `sector_perf`: the groupby-mean table with a `Count` column assigned
positionally (`.values`) from a second, independent groupby of the same
`latest_df`.  The two groupbys are modelled as two separate traversals of
the key list, zipped positionally exactly as the source assigns the numpy
array. -/
def sector_perf (df : DataFrame) : List (String × Rat × Nat) :=
  let l := latest_df df
  List.zipWith (fun p n => (p.1, p.2, n))
    ((sectorKeys l).map (fun s => (s, groupMeanScore l s)))
    ((sectorKeys l).map (fun s => groupCompanyCount l s))

/-- The options of the `Company Name` selectbox: companies of the
sector-filtered table when a sector is selected, all companies otherwise,
alphabetically sorted. -/
def compsFor (df : DataFrame) (selSector : String) : List String :=
  if selSector ≠ "All Sectors" then
    sortStrings (((df.rows.filter (fun r => decide (r.sector = selSector))).map (·.company)).dedup)
  else
    sortStrings ((df.rows.map (·.company)).dedup)

/-- The three metric cards: Top Positive, Top Negative, Sector Average. -/
def cardWidgets (df : DataFrame) : List Widget :=
  [Widget.headerText "Top Positive"] ++
    (top_pos df).map (fun r => Widget.listItem r.company r.score) ++
  [Widget.headerText "Top Negative"] ++
    (top_neg df).map (fun r => Widget.listItem r.company r.score) ++
  [Widget.headerText "Sector Average"] ++
    (sector_avg df).map (fun p => Widget.sectorItem p.1 p.2)

/-- The Company Deep Dive navigation column: the three filters and, when a
company is selected, the current-score lookup
`latest_df[latest_df[Company] == sel_comp].iloc[0]`.  `.iloc[0]` on an
empty selection raises an uncaught IndexError, modelled as a `crashed`
widget. -/
def deepDiveNav (df : DataFrame) (selSector selComp : String) : List Widget :=
  let sectors := "All Sectors" :: sortStrings ((df.rows.map (·.sector)).dedup)
  let comps := compsFor df selSector
  [Widget.selectbox "Industry" sectors,
   Widget.selectbox "Company Name" comps,
   Widget.selectbox "Compare With (Optional)" ("None" :: comps.filter (fun c => decide (c ≠ selComp)))] ++
  (if selComp ≠ "" then
    match (latest_df df).filter (fun r => decide (r.company = selComp)) with
    | [] => [Widget.crashed]
    | r :: _ =>
      [Widget.metric "Current Score" r.score,
       Widget.caption r.sector,
       Widget.caption (r.month ++ " " ++ toString r.year)]
   else [])

/-- The Company Deep Dive chart column: the trend line of the selected
company and, optionally, of the comparison company. -/
def deepDiveGraph (df : DataFrame) (selComp compareComp : String) : List Widget :=
  if selComp ≠ "" then
    [Widget.lineChart ((df.rows.filter (fun r => decide (r.company = selComp))).map
        (fun r => (r.date, r.score)))] ++
    (if compareComp ≠ "None" then
      [Widget.lineChart ((df.rows.filter (fun r => decide (r.company = compareComp))).map
          (fun r => (r.date, r.score)))]
     else [])
  else []

/-- The widgets `main` renders once `load_data` succeeded, in source
order: hero header, the three cards, treemap and histogram, deep dive,
and the raw-data grid (the latest snapshot sorted by descending score). -/
def pageBody (df : DataFrame) (selSector selComp compareComp : String) : List Widget :=
  [Widget.headerText "Indian Market Sentiment Tracker"] ++
  cardWidgets df ++
  [Widget.treemap (sector_perf df),
   Widget.histogram ((latest_df df).map (·.score))] ++
  deepDiveNav df selSector selComp ++
  deepDiveGraph df selComp compareComp ++
  [Widget.dataTable (List.insertionSort scoreDescLe (latest_df df))]

/-- What `main` renders from the result of `load_data`: on `None`, the
in-page error plus `st.stop`; otherwise the full page body. -/
def renderPage (loaded : List Widget × Option DataFrame)
    (selSector selComp compareComp : String) : List Widget :=
  match loaded.2 with
  | none => loaded.1 ++ [Widget.errorMsg "Data file not found", Widget.stopped]
  | some df => loaded.1 ++ pageBody df selSector selComp compareComp

/-- The function `main`, with the three selectbox choices supplied as inputs. -/
def main (env : Env) (selSector selComp compareComp : String) : List Widget :=
  renderPage (load_data env) selSector selComp compareComp

/-- The function `main` with the `st.cache_data` cell made explicit: the cache stores
the memoized result of `load_data`, `main` reads it (filling it on a
miss), renders the page from the value read, and every widget is computed
from derived copies (`sort_values`, `groupby`, filtering all return new
objects), so the cached value is passed through unchanged. -/
def mainWithCache (env : Env) (selSector selComp compareComp : String)
    (cache : Option (List Widget × Option DataFrame)) :
    List Widget × Option (List Widget × Option DataFrame) :=
  let loaded := match cache with
    | some v => v
    | none => load_data env
  (renderPage loaded selSector selComp compareComp, some loaded)

/-- Widgets that are pure failure reporting rather than page content. -/
def isErrorOrStop : Widget → Bool
  | Widget.errorMsg _ => true
  | Widget.stopped => true
  | _ => false

/-- The failure cases of the claim: the file does not exist, or reading
or parsing the spreadsheet raises (unreadable workbook, missing sheet, or
an unparseable month string). -/
def loadFailureCase (env : Env) : Prop :=
  env.fileExists = false ∨ env.workbook = none ∨ sheetOf env = none ∨
    (∃ sh, sheetOf env = some sh ∧
      parseRows sh.hasOverallScore sh.hasOverallSentiment sh.rows = none)

/-- Predicate: `r` is a most-recent observation of company `c` in `df`: it belongs
to the table, is about `c`, and no row of `c` has a later date.  This is
the specification-side notion of the latest snapshot. -/
def IsLatestRowOf (df : DataFrame) (c : String) (r : Row) : Prop :=
  r ∈ df.rows ∧ r.company = c ∧ ∀ r2 ∈ df.rows, r2.company = c → r2.date ≤ r.date

instance (df : DataFrame) (c : String) (r : Row) : Decidable (IsLatestRowOf df c r) := by
  unfold IsLatestRowOf; infer_instance

instance (env : Env) : Decidable (loadFailureCase env) := by
  unfold loadFailureCase; infer_instance

/-! ### Concrete sample data, used to evaluate the definitions -/

/-- A raw row: AlphaCo, Tech, Apr 2024, score 1/4. -/
def rawAlphaApr : RawRow := ⟨"AlphaCo", "Tech", "Apr", 2024, 1/4, 0⟩

/-- A raw row: AlphaCo, Tech, Jan 2024, score 1/2. -/
def rawAlphaJan : RawRow := ⟨"AlphaCo", "Tech", "Jan", 2024, 1/2, 0⟩

/-- A raw row: BetaCo, Energy, Jan 2024, score -3/10. -/
def rawBetaJan : RawRow := ⟨"BetaCo", "Energy", "Jan", 2024, -3/10, 0⟩

/-- A well-formed sheet with an `Overall_Score` column and the AlphaCo
rows deliberately out of date order. -/
def shW : Sheet := ⟨true, false, [rawAlphaApr, rawAlphaJan, rawBetaJan]⟩

/-- An environment whose workbook holds `shW` under the expected sheet
name. -/
def envW : Env := ⟨true, some [("Quarterly Sentiment", shW)]⟩

/-- The table `load_data` produces from `envW`: dates resolved and rows
sorted by company then date. -/
def dfW : DataFrame :=
  ⟨[⟨"AlphaCo", "Tech", "Jan", 2024, 24289, 1/2⟩,
    ⟨"AlphaCo", "Tech", "Apr", 2024, 24292, 1/4⟩,
    ⟨"BetaCo", "Energy", "Jan", 2024, 24289, -3/10⟩], true⟩

/-- A sheet whose only row has `Overall_Score = 2`, outside `[-1, 1]`. -/
def shOut : Sheet := ⟨true, false, [⟨"AlphaCo", "Tech", "Jan", 2024, 2, 0⟩]⟩

/-- An environment holding `shOut`. -/
def envOut : Env := ⟨true, some [("Quarterly Sentiment", shOut)]⟩

/-- A sheet with neither an `Overall_Score` nor an `Overall_Sentiment`
column. -/
def shNoScore : Sheet := ⟨false, false, [⟨"AlphaCo", "Tech", "Jan", 2024, 0, 0⟩]⟩

/-- An environment holding `shNoScore`. -/
def envNoScore : Env := ⟨true, some [("Quarterly Sentiment", shNoScore)]⟩

/-- An environment whose spreadsheet file does not exist. -/
def envMissing : Env := ⟨false, none⟩

/-! ### Helper lemmas -/

theorem mem_of_mem_tailOnePerCompany {r : Row} {l : List Row} :
    r ∈ tailOnePerCompany l → r ∈ l := by
  induction l with
  | nil => intro h; simp [tailOnePerCompany] at h
  | cons x xs ih =>
    intro h
    rw [tailOnePerCompany] at h
    split at h
    · exact List.mem_cons_of_mem x (ih h)
    · rcases List.mem_cons.mp h with h | h
      · exact h ▸ List.mem_cons_self x xs
      · exact List.mem_cons_of_mem x (ih h)

theorem countP_tailOnePerCompany (c : String) (l : List Row) :
    (tailOnePerCompany l).countP (fun r => decide (r.company = c)) =
      if l.any (fun r => decide (r.company = c)) then 1 else 0 := by
  induction l with
  | nil => simp [tailOnePerCompany]
  | cons x xs ih =>
    rw [tailOnePerCompany]
    by_cases hx : (xs.any (fun s => decide (s.company = x.company))) = true
    · rw [if_pos hx, ih]
      by_cases hc : x.company = c
      · have hxs : xs.any (fun r => decide (r.company = c)) = true := by
          rcases List.any_eq_true.mp hx with ⟨s, hs, hsc⟩
          exact List.any_eq_true.mpr ⟨s, hs, by simp only [decide_eq_true_eq] at hsc ⊢; rw [hsc, hc]⟩
        simp [List.any_cons, hxs, hc]
      · simp [List.any_cons, hc]
    · rw [if_neg hx, List.countP_cons, ih]
      by_cases hc : x.company = c
      · have hxs : xs.any (fun r => decide (r.company = c)) = false := by
          cases h2 : xs.any (fun r => decide (r.company = c))
          · rfl
          · exfalso
            rcases List.any_eq_true.mp h2 with ⟨s, hs, hsc⟩
            exact hx (List.any_eq_true.mpr ⟨s, hs, by
              simp only [decide_eq_true_eq] at hsc ⊢; rw [hsc, hc]⟩)
        simp [List.any_cons, hc, hxs]
      · simp [List.any_cons, hc]

theorem date_le_of_mem_tailOnePerCompany {l : List Row} :
    l.Pairwise dateLe → ∀ {r : Row}, r ∈ tailOnePerCompany l →
      ∀ r2 ∈ l, r2.company = r.company → r2.date ≤ r.date := by
  induction l with
  | nil => intro _ r h; simp [tailOnePerCompany] at h
  | cons x xs ih =>
    intro hp r hr r2 hr2 hc
    have hx : ∀ y ∈ xs, dateLe x y := (List.pairwise_cons.mp hp).1
    have hpx : xs.Pairwise dateLe := (List.pairwise_cons.mp hp).2
    rw [tailOnePerCompany] at hr
    split at hr
    · rcases List.mem_cons.mp hr2 with h2 | h2
      · exact h2 ▸ hx r (mem_of_mem_tailOnePerCompany hr)
      · exact ih hpx hr r2 h2 hc
    · rename_i hcond
      rcases List.mem_cons.mp hr with hr | hr
      · subst hr
        rcases List.mem_cons.mp hr2 with h2 | h2
        · exact h2 ▸ le_refl _
        · exact absurd (List.any_eq_true.mpr ⟨r2, h2, by simp [hc]⟩) hcond
      · rcases List.mem_cons.mp hr2 with h2 | h2
        · exact h2 ▸ hx r (mem_of_mem_tailOnePerCompany hr)
        · exact ih hpx hr r2 h2 hc

theorem nodup_companies_tailOnePerCompany (l : List Row) :
    ((tailOnePerCompany l).map Row.company).Nodup := by
  induction l with
  | nil => simp [tailOnePerCompany]
  | cons x xs ih =>
    rw [tailOnePerCompany]
    split
    · exact ih
    · rename_i hcond
      rw [List.map_cons]
      refine List.nodup_cons.mpr ⟨?_, ih⟩
      intro hmem
      rcases List.mem_map.mp hmem with ⟨s, hs, hsc⟩
      exact hcond (List.any_eq_true.mpr ⟨s, mem_of_mem_tailOnePerCompany hs, by simp [hsc]⟩)

theorem pairwise_filter_of_pairwise {α : Type} {p : α → Bool} {R S : α → α → Prop}
    (himp : ∀ a b, p a = true → p b = true → R a b → S a b) {l : List α} :
    l.Pairwise R → (l.filter p).Pairwise S := by
  induction l with
  | nil => intro _; simp
  | cons x xs ih =>
    intro hp
    rcases List.pairwise_cons.mp hp with ⟨hx, hxs⟩
    by_cases hpx : p x = true
    · rw [List.filter_cons_of_pos hpx]
      refine List.pairwise_cons.mpr ⟨?_, ih hxs⟩
      intro y hy
      exact himp x y hpx (List.of_mem_filter hy) (hx y (List.mem_of_mem_filter hy))
    · rw [List.filter_cons_of_neg (by simpa using hpx)]
      exact ih hxs

theorem zipWith_map_same {α β γ δ : Type} (f : β → γ → δ) (g : α → β) (h : α → γ)
    (l : List α) :
    List.zipWith f (l.map g) (l.map h) = l.map (fun a => f (g a) (h a)) := by
  induction l with
  | nil => simp
  | cons x xs ih => simp [ih]

theorem any_eq_of_perm {α : Type} {l1 l2 : List α} (h : List.Perm l1 l2) (p : α → Bool) :
    l1.any p = l2.any p := by
  cases h1 : l2.any p with
  | true =>
    rcases List.any_eq_true.mp h1 with ⟨x, hx, hpx⟩
    exact List.any_eq_true.mpr ⟨x, h.mem_iff.mpr hx, hpx⟩
  | false =>
    cases h2 : l1.any p with
    | false => rfl
    | true =>
      rcases List.any_eq_true.mp h2 with ⟨x, hx, hpx⟩
      have h3 := List.any_eq_true.mpr ⟨x, h.mem_iff.mp hx, hpx⟩
      rw [h1] at h3
      simp at h3

theorem load_data_eq_some {env : Env} {df : DataFrame}
    (h : (load_data env).2 = some df) :
    ∃ sh rows0, sheetOf env = some sh ∧
      parseRows sh.hasOverallScore sh.hasOverallSentiment sh.rows = some rows0 ∧
      df = { rows := List.insertionSort compDateLe rows0,
             hasScore := sh.hasOverallScore || sh.hasOverallSentiment } := by
  rw [load_data] at h
  split at h
  · simp at h
  · split at h
    · simp at h
    · rename_i wb hwb
      split at h
      · simp at h
      · rename_i sh hsh
        split at h
        · simp at h
        · rename_i rows0 hpr
          simp only [Option.some.injEq] at h
          exact ⟨sh, rows0, by simp [sheetOf, hwb, hsh], hpr, h.symm⟩

theorem mem_of_parseRows {hs hsent : Bool} {raws : List RawRow} {rows0 : List Row} :
    parseRows hs hsent raws = some rows0 → ∀ r ∈ rows0,
      ∃ rr ∈ raws, ∃ mi, monthIndex rr.month = some mi ∧ r = buildRow hs hsent rr mi := by
  induction raws generalizing rows0 with
  | nil =>
    intro h r hr
    simp only [parseRows, Option.some.injEq] at h
    subst h; simp at hr
  | cons rr rest ih =>
    intro h r hr
    rw [parseRows] at h
    cases hmi : monthIndex rr.month with
    | none => rw [hmi] at h; simp at h
    | some mi =>
      rw [hmi] at h
      cases hpr : parseRows hs hsent rest with
      | none => rw [hpr] at h; simp at h
      | some rs =>
        rw [hpr] at h
        simp only [Option.map_some', Option.some.injEq] at h
        subst h
        rcases List.mem_cons.mp hr with hr | hr
        · exact ⟨rr, List.mem_cons_self _ _, mi, hmi, hr⟩
        · rcases ih hpr r hr with ⟨rr2, h1, mi2, h2, h3⟩
          exact ⟨rr2, List.mem_cons_of_mem _ h1, mi2, h2, h3⟩

theorem isLatest_of_mem_latest_df {df : DataFrame} {r : Row} (h : r ∈ latest_df df) :
    IsLatestRowOf df r.company r := by
  have hperm := List.perm_insertionSort dateLe df.rows
  have hsorted := List.sorted_insertionSort dateLe df.rows
  have hmem : r ∈ List.insertionSort dateLe df.rows := mem_of_mem_tailOnePerCompany h
  refine ⟨hperm.mem_iff.mp hmem, rfl, ?_⟩
  intro r2 hr2 hc
  exact date_le_of_mem_tailOnePerCompany hsorted h r2 (hperm.mem_iff.mpr hr2) hc

theorem length_filter_latest_df (df : DataFrame) (c : String) :
    ((latest_df df).filter (fun r => decide (r.company = c))).length =
      if df.rows.any (fun r => decide (r.company = c)) then 1 else 0 := by
  rw [← List.countP_eq_length_filter, latest_df,
      countP_tailOnePerCompany c (List.insertionSort dateLe df.rows),
      any_eq_of_perm (List.perm_insertionSort dateLe df.rows)]

theorem load_data_widgets_error (env : Env) :
    ∀ w ∈ (load_data env).1, isErrorOrStop w = true := by
  rw [load_data]
  split
  · simp
  · split
    · simp [isErrorOrStop]
    · split
      · simp [isErrorOrStop]
      · split
        · simp [isErrorOrStop]
        · simp

theorem nodup_companies_filter_latest (df : DataFrame) (p : Row → Bool) :
    (((latest_df df).filter p).map Row.company).Nodup := by
  have hsub : List.Sublist (((latest_df df).filter p).map Row.company)
      ((latest_df df).map Row.company) :=
    (List.filter_sublist _).map Row.company
  exact (nodup_companies_tailOnePerCompany (List.insertionSort dateLe df.rows)).sublist hsub

theorem mean_of_mem_sector_avg {df : DataFrame} {s : String} {v : Rat}
    (hv : (s, v) ∈ sector_avg df) :
    v = groupMeanScore (latest_df df) s := by
  simp only [sector_avg] at hv
  have hv2 := List.mem_of_mem_take hv
  rw [List.mem_insertionSort] at hv2
  rcases List.mem_map.mp hv2 with ⟨k, _, hke⟩
  obtain ⟨h1, h2⟩ := Prod.mk.injEq .. |>.mp hke
  rw [← h1, ← h2]

theorem mean_of_mem_sector_perf {df : DataFrame} {s : String} {v : Rat} {n : Nat}
    (hv : (s, v, n) ∈ sector_perf df) :
    v = groupMeanScore (latest_df df) s ∧ n = groupCompanyCount (latest_df df) s := by
  simp only [sector_perf] at hv
  rw [zipWith_map_same] at hv
  rcases List.mem_map.mp hv with ⟨k, _, hke⟩
  obtain ⟨h1, h2, h3⟩ := Prod.mk.injEq .. |>.mp hke |>.imp id (Prod.mk.injEq .. |>.mp)
  exact ⟨h1 ▸ h2.symm, h1 ▸ h3.symm⟩

theorem load_data_envW : (load_data envW).2 = some dfW := by
  norm_num [load_data, envW, shW, rawAlphaApr, rawAlphaJan, rawBetaJan, lookupSheet,
    List.find?, parseRows, monthIndex, buildRow, List.insertionSort, List.orderedInsert,
    compDateLe, dfW]
  decide

theorem sheetOf_envW : sheetOf envW = some shW := by
  norm_num [sheetOf, envW, lookupSheet, List.find?]

/-! ### Claims -/

/-- C1: for every company appearing in the loaded table, `latest_df`
contains exactly one row for that company, and that row is a row of the
table whose date is maximal among the rows of that company. -/
theorem C1_latest_snapshot_unique_and_max (df : DataFrame) (c : String)
    (hc : c ∈ df.rows.map Row.company) :
    ((latest_df df).filter (fun r => decide (r.company = c))).length = 1 ∧
    ∀ r ∈ (latest_df df).filter (fun r => decide (r.company = c)),
      IsLatestRowOf df c r := by
  constructor
  · rw [length_filter_latest_df]
    rcases List.mem_map.mp hc with ⟨r, hr, hrc⟩
    rw [List.any_eq_true.mpr ⟨r, hr, by simp [hrc]⟩]
    simp
  · intro r hr
    have h1 : r ∈ latest_df df := List.mem_of_mem_filter hr
    have h2 : r.company = c := by simpa using List.of_mem_filter hr
    exact h2 ▸ isLatest_of_mem_latest_df h1

/-- C5: `top_pos` consists of the five highest-score rows of the latest
snapshot in non-increasing score order, and `top_neg` of the five
lowest-score rows in non-decreasing score order (all rows when the
snapshot has fewer than five). -/
theorem C5_top_lists_sorted (df : DataFrame) :
    ((top_pos df).length = min 5 (latest_df df).length ∧
     (top_pos df).Pairwise (fun a b => b.score ≤ a.score) ∧
     ∃ rest, List.Perm (top_pos df ++ rest) (latest_df df) ∧
       ∀ r ∈ top_pos df, ∀ r2 ∈ rest, r2.score ≤ r.score) ∧
    ((top_neg df).length = min 5 (latest_df df).length ∧
     (top_neg df).Pairwise (fun a b => a.score ≤ b.score) ∧
     ∃ rest, List.Perm (top_neg df ++ rest) (latest_df df) ∧
       ∀ r ∈ top_neg df, ∀ r2 ∈ rest, r.score ≤ r2.score) := by
  constructor
  · refine ⟨?_, ?_, (List.insertionSort scoreDescLe (latest_df df)).drop 5, ?_, ?_⟩
    · rw [top_pos, List.length_take, List.length_insertionSort]
    · exact (List.sorted_insertionSort scoreDescLe (latest_df df)).sublist
        (List.take_sublist 5 _)
    · rw [top_pos, List.take_append_drop]
      exact List.perm_insertionSort scoreDescLe (latest_df df)
    · intro r hr r2 hr2
      have hs := List.sorted_insertionSort scoreDescLe (latest_df df)
      rw [← List.take_append_drop 5 (List.insertionSort scoreDescLe (latest_df df))] at hs
      exact (List.pairwise_append.mp hs).2.2 r hr r2 hr2
  · refine ⟨?_, ?_, (List.insertionSort scoreAscLe (latest_df df)).drop 5, ?_, ?_⟩
    · rw [top_neg, List.length_take, List.length_insertionSort]
    · exact (List.sorted_insertionSort scoreAscLe (latest_df df)).sublist
        (List.take_sublist 5 _)
    · rw [top_neg, List.take_append_drop]
      exact List.perm_insertionSort scoreAscLe (latest_df df)
    · intro r hr r2 hr2
      have hs := List.sorted_insertionSort scoreAscLe (latest_df df)
      rw [← List.take_append_drop 5 (List.insertionSort scoreAscLe (latest_df df))] at hs
      exact (List.pairwise_append.mp hs).2.2 r hr r2 hr2

/-- C7: after a successful load, the rows of each company appear in the
table in non-decreasing date order (the table is sorted by company then
date). -/
theorem C7_dates_sorted_per_company (env : Env) (df : DataFrame) (c : String)
    (h : (load_data env).2 = some df) :
    (df.rows.filter (fun r => decide (r.company = c))).Pairwise dateLe := by
  rcases load_data_eq_some h with ⟨sh, rows0, _, _, hdf⟩
  subst hdf
  have hs : (List.insertionSort compDateLe rows0).Pairwise compDateLe :=
    List.sorted_insertionSort compDateLe rows0
  refine pairwise_filter_of_pairwise ?_ hs
  intro a b hpa hpb hR
  have ha : a.company = c := by simpa using hpa
  have hb : b.company = c := by simpa using hpb
  rcases hR with hlt | ⟨_, hd⟩
  · rw [ha, hb] at hlt
    exact absurd hlt (lt_irrefl c)
  · exact hd

/-- C8: rendering reads the cached table and returns it unchanged; the
page is computed purely from the cached value, so the cache after `main`
is the cache before. -/
theorem C8_render_leaves_cache_unchanged (env : Env)
    (selSector selComp compareComp : String) (v : List Widget × Option DataFrame) :
    mainWithCache env selSector selComp compareComp (some v) =
      (renderPage v selSector selComp compareComp, some v) := rfl

/-- C10: every company offered by the Company Name filter (with or
without a sector filter) has at least one row in the latest snapshot, so
the positional `iloc[0]` lookup of its current-score row cannot fail. -/
theorem C10_filter_companies_in_latest (df : DataFrame) (selSector c : String)
    (h : c ∈ compsFor df selSector) :
    (latest_df df).filter (fun r => decide (r.company = c)) ≠ [] := by
  have hex : df.rows.any (fun r => decide (r.company = c)) = true := by
    rw [compsFor] at h
    split at h
    · have h2 : c ∈ (df.rows.filter (fun r => decide (r.sector = selSector))).map (·.company) :=
        List.mem_dedup.mp (by simpa [sortStrings, List.mem_insertionSort] using h)
      rcases List.mem_map.mp h2 with ⟨r, hr, hrc⟩
      exact List.any_eq_true.mpr ⟨r, List.mem_of_mem_filter hr, by simp [hrc]⟩
    · have h2 : c ∈ df.rows.map (·.company) :=
        List.mem_dedup.mp (by simpa [sortStrings, List.mem_insertionSort] using h)
      rcases List.mem_map.mp h2 with ⟨r, hr, hrc⟩
      exact List.any_eq_true.mpr ⟨r, hr, by simp [hrc]⟩
  intro hemp
  have hlen := length_filter_latest_df df c
  rw [hemp, hex] at hlen
  simp at hlen

/-- C2 (amended): `load_data` copies score values unchanged and performs
no range validation, so every row of the loaded table has a score in
`[-1, 1]` exactly when every score value of the input sheet lies in
`[-1, 1]`. -/
theorem C2_scores_in_range (env : Env) (df : DataFrame)
    (h : (load_data env).2 = some df)
    (hin : ∀ sh rr, sheetOf env = some sh → rr ∈ sh.rows →
      -1 ≤ chosenScore sh rr ∧ chosenScore sh rr ≤ 1) :
    ∀ r ∈ df.rows, -1 ≤ r.score ∧ r.score ≤ 1 := by
  rcases load_data_eq_some h with ⟨sh, rows0, hsh, hpr, hdf⟩
  subst hdf
  intro r hr
  have hr0 : r ∈ rows0 := (List.perm_insertionSort compDateLe rows0).mem_iff.mp hr
  rcases mem_of_parseRows hpr r hr0 with ⟨rr, hrr, mi, _, hbuild⟩
  have hsc : r.score = chosenScore sh rr := by
    subst hbuild
    simp [buildRow, chosenScore]
  rw [hsc]
  exact hin sh rr hsh hrr

/-- C3: when the file is missing or reading or parsing raises, `load_data`
returns `None` and `main` renders only the in-page error report and the
stop marker; no page content is produced. -/
theorem C3_failure_halts_rendering (env : Env) (selSector selComp compareComp : String)
    (h : loadFailureCase env) :
    (load_data env).2 = none ∧
    main env selSector selComp compareComp =
      (load_data env).1 ++ [Widget.errorMsg "Data file not found", Widget.stopped] ∧
    ∀ w ∈ main env selSector selComp compareComp, isErrorOrStop w = true := by
  have hnone : (load_data env).2 = none := by
    rcases h with h | h | h | ⟨sh, hsh, hpr⟩
    · simp [load_data, h]
    · rw [load_data]
      split
      · rfl
      · simp [h]
    · rw [load_data]
      split
      · rfl
      · cases hwb : env.workbook with
        | none => simp [hwb]
        | some wb =>
          have hls : lookupSheet wb "Quarterly Sentiment" = none := by
            simpa [sheetOf, hwb] using h
          simp [hwb, hls]
    · rw [load_data]
      split
      · rfl
      · cases hwb : env.workbook with
        | none => simp [hwb]
        | some wb =>
          have hls : lookupSheet wb "Quarterly Sentiment" = some sh := by
            simpa [sheetOf, hwb] using hsh
          simp [hwb, hls, hpr]
  have hmain : main env selSector selComp compareComp =
      (load_data env).1 ++ [Widget.errorMsg "Data file not found", Widget.stopped] := by
    rw [main, renderPage, hnone]
  refine ⟨hnone, hmain, ?_⟩
  intro w hw
  rw [hmain] at hw
  rcases List.mem_append.mp hw with hw | hw
  · exact load_data_widgets_error env w hw
  · rcases List.mem_cons.mp hw with hw | hw
    · subst hw; rfl
    · rcases List.mem_cons.mp hw with hw | hw
      · subst hw; rfl
      · simp at hw

/-- C4: every displayed sector average (the Sector Average card and the
treemap color value) is the arithmetic mean of the latest-snapshot scores
of exactly the companies whose latest row lies in that sector; the
hypothesis rules out a company having two rows with the same date. -/
theorem C4_sector_mean_correct (df : DataFrame) (s : String) (v : Rat)
    (hud : df.rows.Pairwise (fun a b => a.company = b.company → a.date = b.date → a = b))
    (hv : (s, v) ∈ sector_avg df ∨ ∃ n, (s, v, n) ∈ sector_perf df) :
    v = (((latest_df df).filter (fun r => decide (r.sector = s))).map Row.score).sum /
        ((((latest_df df).filter (fun r => decide (r.sector = s))).length : Nat) : Rat) ∧
    (((latest_df df).filter (fun r => decide (r.sector = s))).map Row.company).Nodup ∧
    (∀ r ∈ (latest_df df).filter (fun r => decide (r.sector = s)),
      IsLatestRowOf df r.company r ∧ r.sector = s) ∧
    (∀ c r2, IsLatestRowOf df c r2 → r2.sector = s →
      c ∈ ((latest_df df).filter (fun r => decide (r.sector = s))).map Row.company) := by
  refine ⟨?_, nodup_companies_filter_latest df _, ?_, ?_⟩
  · have hm : v = groupMeanScore (latest_df df) s := by
      rcases hv with hv | ⟨n, hv⟩
      · exact mean_of_mem_sector_avg hv
      · exact (mean_of_mem_sector_perf hv).1
    rw [hm, groupMeanScore]
  · intro r hr
    refine ⟨isLatest_of_mem_latest_df (List.mem_of_mem_filter hr), ?_⟩
    simpa using List.of_mem_filter hr
  · intro c r2 hlat hsec
    obtain ⟨hr2mem, hr2c, hr2max⟩ := hlat
    have hex : df.rows.any (fun r => decide (r.company = c)) = true :=
      List.any_eq_true.mpr ⟨r2, hr2mem, by simp [hr2c]⟩
    have hlen := length_filter_latest_df df c
    rw [hex, if_pos rfl] at hlen
    rcases List.length_eq_one.mp hlen with ⟨r, hfil⟩
    have hrmem : r ∈ (latest_df df).filter (fun r => decide (r.company = c)) := by
      rw [hfil]; exact List.mem_cons_self r []
    have hrl : r ∈ latest_df df := List.mem_of_mem_filter hrmem
    have hrc : r.company = c := by simpa using List.of_mem_filter hrmem
    obtain ⟨hrrows, _, hrmax⟩ := isLatest_of_mem_latest_df hrl
    have hdate : r.date = r2.date :=
      le_antisymm (hr2max r hrrows hrc) (hrmax r2 hr2mem (hr2c.trans hrc.symm))
    have hsym : Symmetric (fun a b : Row => a.company = b.company → a.date = b.date → a = b) :=
      fun a b hab h1 h2 => (hab h1.symm h2.symm).symm
    have hreq : r = r2 := by
      by_cases heq : r = r2
      · exact heq
      · exact (hud.forall hsym hrrows hr2mem heq) (hrc.trans hr2c.symm) hdate
    refine List.mem_map.mpr ⟨r, ?_, hrc⟩
    refine List.mem_filter.mpr ⟨hrl, ?_⟩
    simp [hreq, hsec]

/-- C6 (amended): `load_data` reads the sheet named Quarterly Sentiment;
when at least one of the `Overall_Score` and `Overall_Sentiment` columns
exists, the returned table has a `Score` column taken from
`Overall_Score` if present, else from `Overall_Sentiment`.  When neither
column exists the returned table has no `Score` column. -/
theorem C6_score_column_derivation (env : Env) (df : DataFrame) (sh : Sheet)
    (h : (load_data env).2 = some df) (hsh : sheetOf env = some sh)
    (hcol : sh.hasOverallScore = true ∨ sh.hasOverallSentiment = true) :
    df.hasScore = true ∧
    ∀ r ∈ df.rows, ∃ rr ∈ sh.rows,
      r.company = rr.company ∧ r.sector = rr.sector ∧
      r.score = (if sh.hasOverallScore then rr.overall_Score else rr.overall_Sentiment) := by
  rcases load_data_eq_some h with ⟨sh2, rows0, hsh2, hpr, hdf⟩
  have hss : sh2 = sh := by
    have h5 := hsh2.symm.trans hsh
    injection h5
  rw [hss] at hpr hdf
  subst hdf
  constructor
  · rcases hcol with h2 | h2 <;> simp [h2]
  · intro r hr
    have hr0 : r ∈ rows0 := (List.perm_insertionSort compDateLe rows0).mem_iff.mp hr
    rcases mem_of_parseRows hpr r hr0 with ⟨rr, hrr, mi, _, hbuild⟩
    subst hbuild
    refine ⟨rr, hrr, by simp [buildRow], by simp [buildRow], ?_⟩
    by_cases h2 : sh.hasOverallScore = true
    · simp [buildRow, h2]
    · have h3 : sh.hasOverallSentiment = true := by
        rcases hcol with h4 | h4
        · exact absurd h4 h2
        · exact h4
      simp [buildRow, h2, h3]

/-- C9: in the treemap input each count is positionally aligned with the
sector of the same row: it equals the number of latest-snapshot rows of
that sector, and those rows are one per company. -/
theorem C9_treemap_count_aligned (df : DataFrame) (s : String) (m : Rat) (n : Nat)
    (h : (s, m, n) ∈ sector_perf df) :
    n = ((latest_df df).filter (fun r => decide (r.sector = s))).length ∧
    (((latest_df df).filter (fun r => decide (r.sector = s))).map Row.company).Nodup := by
  refine ⟨?_, nodup_companies_filter_latest df _⟩
  have hn := (mean_of_mem_sector_perf h).2
  rw [hn, groupCompanyCount]

/-! ### Witnesses and counterexamples at concrete inputs -/

/-- Witness for C1 at the sample table and company AlphaCo. -/
theorem C1_latest_snapshot_unique_and_max_w :
    "AlphaCo" ∈ dfW.rows.map Row.company ∧
    (((latest_df dfW).filter (fun r => decide (r.company = "AlphaCo"))).length = 1 ∧
     ∀ r ∈ (latest_df dfW).filter (fun r => decide (r.company = "AlphaCo")),
       IsLatestRowOf dfW "AlphaCo" r) :=
  ⟨by simp [dfW], C1_latest_snapshot_unique_and_max dfW "AlphaCo" (by simp [dfW])⟩

/-- Witness for the amended C2 at the sample environment. -/
theorem C2_scores_in_range_w :
    (load_data envW).2 = some dfW ∧
    (∀ sh rr, sheetOf envW = some sh → rr ∈ sh.rows →
      -1 ≤ chosenScore sh rr ∧ chosenScore sh rr ≤ 1) ∧
    ∀ r ∈ dfW.rows, -1 ≤ r.score ∧ r.score ≤ 1 := by
  have hin : ∀ sh rr, sheetOf envW = some sh → rr ∈ sh.rows →
      -1 ≤ chosenScore sh rr ∧ chosenScore sh rr ≤ 1 := by
    intro sh rr hsh hrr
    rw [sheetOf_envW] at hsh
    injection hsh with hsh
    subst hsh
    simp only [shW, List.mem_cons, List.not_mem_nil, or_false] at hrr
    rcases hrr with rfl | rfl | rfl <;>
      norm_num [chosenScore, shW, rawAlphaApr, rawAlphaJan, rawBetaJan]
  exact ⟨load_data_envW, hin, C2_scores_in_range envW dfW load_data_envW hin⟩

/-- Counterexample to C2 as stated: loading `envOut` succeeds and the
resulting table holds a row whose score is 2, outside `[-1, 1]`. -/
theorem C2_scores_in_range_cex :
    ∃ df, (load_data envOut).2 = some df ∧
      ¬ (∀ r ∈ df.rows, -1 ≤ r.score ∧ r.score ≤ 1) := by
  refine ⟨⟨[⟨"AlphaCo", "Tech", "Jan", 2024, 24289, 2⟩], true⟩, ?_, ?_⟩
  · norm_num [load_data, envOut, shOut, lookupSheet, List.find?, parseRows, monthIndex,
      buildRow, List.insertionSort, List.orderedInsert, compDateLe]
  · intro h
    have h2 := h ⟨"AlphaCo", "Tech", "Jan", 2024, 24289, 2⟩ (by simp)
    norm_num at h2

/-- Witness for C3 at an environment without a spreadsheet file. -/
theorem C3_failure_halts_rendering_w :
    loadFailureCase envMissing ∧
    ((load_data envMissing).2 = none ∧
     main envMissing "" "" "" =
       (load_data envMissing).1 ++ [Widget.errorMsg "Data file not found", Widget.stopped] ∧
     ∀ w ∈ main envMissing "" "" "", isErrorOrStop w = true) :=
  ⟨Or.inl rfl, C3_failure_halts_rendering envMissing "" "" "" (Or.inl rfl)⟩

/-- Witness for C4 at the sample table and the Tech sector. -/
theorem C4_sector_mean_correct_w :
    (dfW.rows.Pairwise (fun a b => a.company = b.company → a.date = b.date → a = b)) ∧
    (("Tech", (1:Rat)/4) ∈ sector_avg dfW ∨ ∃ n, ("Tech", (1:Rat)/4, n) ∈ sector_perf dfW) ∧
    ((1:Rat)/4 = (((latest_df dfW).filter (fun r => decide (r.sector = "Tech"))).map Row.score).sum /
        ((((latest_df dfW).filter (fun r => decide (r.sector = "Tech"))).length : Nat) : Rat) ∧
     (((latest_df dfW).filter (fun r => decide (r.sector = "Tech"))).map Row.company).Nodup ∧
     (∀ r ∈ (latest_df dfW).filter (fun r => decide (r.sector = "Tech")),
       IsLatestRowOf dfW r.company r ∧ r.sector = "Tech") ∧
     (∀ c r2, IsLatestRowOf dfW c r2 → r2.sector = "Tech" →
       c ∈ ((latest_df dfW).filter (fun r => decide (r.sector = "Tech"))).map Row.company)) := by
  have hud : dfW.rows.Pairwise (fun a b => a.company = b.company → a.date = b.date → a = b) := by
    simp only [dfW]
    refine List.Pairwise.cons ?_ (List.Pairwise.cons ?_ (List.Pairwise.cons ?_ List.Pairwise.nil))
    · intro b hb
      rcases List.mem_cons.mp hb with rfl | hb
      · intro _ h2
        exact absurd h2 (by decide)
      · rcases List.mem_cons.mp hb with rfl | hb
        · intro h1
          exact absurd h1 (by decide)
        · simp at hb
    · intro b hb
      rcases List.mem_cons.mp hb with rfl | hb
      · intro h1
        exact absurd h1 (by decide)
      · simp at hb
    · intro b hb
      simp at hb
  have hv : ("Tech", (1:Rat)/4) ∈ sector_avg dfW := by
    simp [sector_avg, latest_df, dfW, List.insertionSort, List.orderedInsert, dateLe,
      tailOnePerCompany, sectorKeys, sortStrings, strLe, groupMeanScore, pairScoreDesc,
      List.dedup]
    norm_num
  exact ⟨hud, Or.inl hv, C4_sector_mean_correct dfW "Tech" (1/4) hud (Or.inl hv)⟩

/-- Witness for the amended C6 at the sample environment. -/
theorem C6_score_column_derivation_w :
    (load_data envW).2 = some dfW ∧ sheetOf envW = some shW ∧
    (shW.hasOverallScore = true ∨ shW.hasOverallSentiment = true) ∧
    (dfW.hasScore = true ∧
     ∀ r ∈ dfW.rows, ∃ rr ∈ shW.rows,
       r.company = rr.company ∧ r.sector = rr.sector ∧
       r.score = (if shW.hasOverallScore then rr.overall_Score else rr.overall_Sentiment)) :=
  ⟨load_data_envW, sheetOf_envW, Or.inl rfl,
   C6_score_column_derivation envW dfW shW load_data_envW sheetOf_envW (Or.inl rfl)⟩

/-- Counterexample to C6 as stated: with neither score column present,
loading succeeds but the returned table has no `Score` column. -/
theorem C6_score_column_derivation_cex :
    Option.map DataFrame.hasScore (load_data envNoScore).2 = some false := by
  norm_num [load_data, envNoScore, shNoScore, lookupSheet, List.find?, parseRows,
    monthIndex, buildRow, List.insertionSort, List.orderedInsert, compDateLe]

/-- Witness for C7 at the sample environment and company AlphaCo. -/
theorem C7_dates_sorted_per_company_w :
    (load_data envW).2 = some dfW ∧
    (dfW.rows.filter (fun r => decide (r.company = "AlphaCo"))).Pairwise dateLe :=
  ⟨load_data_envW, C7_dates_sorted_per_company envW dfW "AlphaCo" load_data_envW⟩

/-- Witness for C9 at the sample table and the Tech sector. -/
theorem C9_treemap_count_aligned_w :
    ("Tech", (1:Rat)/4, 1) ∈ sector_perf dfW ∧
    (1 = ((latest_df dfW).filter (fun r => decide (r.sector = "Tech"))).length ∧
     (((latest_df dfW).filter (fun r => decide (r.sector = "Tech"))).map Row.company).Nodup) := by
  have hmem : ("Tech", (1:Rat)/4, 1) ∈ sector_perf dfW := by
    simp [sector_perf, latest_df, dfW, List.insertionSort, List.orderedInsert, dateLe,
      tailOnePerCompany, sectorKeys, sortStrings, strLe, groupMeanScore, groupCompanyCount,
      List.dedup, List.zipWith]
  exact ⟨hmem, C9_treemap_count_aligned dfW "Tech" (1/4) 1 hmem⟩

/-- Witness for C10 at the sample table with no sector filter. -/
theorem C10_filter_companies_in_latest_w :
    "AlphaCo" ∈ compsFor dfW "All Sectors" ∧
    (latest_df dfW).filter (fun r => decide (r.company = "AlphaCo")) ≠ [] := by
  have hmem : "AlphaCo" ∈ compsFor dfW "All Sectors" := by
    simp [compsFor, dfW, sortStrings, List.insertionSort, List.orderedInsert, strLe,
      List.dedup]
    decide
  exact ⟨hmem, C10_filter_companies_in_latest dfW "All Sectors" "AlphaCo" hmem⟩

end Dashboard
